import Mathlib

/-!
Verification of the resilience core of the Synapse repository.

The Lean definitions below are a shallow embedding of the Python sources:

* `src/services/interceptors/circuit_breaker.py`
* `src/services/interceptors/retry.py`
* `src/services/interceptors/adaptive_timeout.py`
* `src/services/fallback.py`
* `src/services/streaming_checkpoint.py`
* `src/gateway/connection_pool.py`

Modelling conventions:

* Python floats (timestamps, timeouts, latencies) are modelled as exact
  rationals `ℚ`; `time.time()` / `time.perf_counter()` values are passed
  explicitly as a `now` argument to every operation that reads the clock.
* Python dicts are modelled either as association lists (`dictGet` /
  `dictSet` / `dictRemove`, preserving insertion order as Python dicts do)
  or, where only point lookups occur, as total functions with the
  defaultdict default.
* `async` methods that mutate `self` under a lock become pure state-passing
  functions `state → inputs → state` (the claims are all about the
  quiescent, serialized behaviour).
* `random.uniform(-r, r)` becomes an explicit noise argument `u` constrained
  by `|u| ≤ r` in the theorems.
-/

/-- The gRPC status codes used by the resilience layers (`grpc.StatusCode`
members referenced in the sources). -/
inductive StatusCode where
  | ok
  | cancelled
  | unknown
  | invalid_argument
  | deadline_exceeded
  | not_found
  | permission_denied
  | resource_exhausted
  | failed_precondition
  | aborted
  | internal
  | unavailable
  deriving DecidableEq, Repr

/-- Association-list lookup, modelling Python `dict.get` /  `key in dict`. -/
def dictGet {κ α : Type} [DecidableEq κ] : List (κ × α) → κ → Option α
  | [], _ => none
  | e :: rest, k => if e.1 = k then some e.2 else dictGet rest k

/-- Association-list update, modelling Python `dict[key] = value` (replaces
the existing binding in place, else appends, as insertion-ordered Python
dicts do). -/
def dictSet {κ α : Type} [DecidableEq κ] : List (κ × α) → κ → α → List (κ × α)
  | [], k, v => [(k, v)]
  | e :: rest, k, v => if e.1 = k then (k, v) :: rest else e :: dictSet rest k v

/-- Association-list removal, modelling Python `del dict[key]`. -/
def dictRemove {κ α : Type} [DecidableEq κ] : List (κ × α) → κ → List (κ × α)
  | [], _ => []
  | e :: rest, k => if e.1 = k then rest else e :: dictRemove rest k

/-! ## Circuit breaker (`src/services/interceptors/circuit_breaker.py`) -/

/-- `CircuitBreakerState`: CLOSED / OPEN / HALF_OPEN. -/
inductive CircuitBreakerState where
  | closed
  | «open»
  | half_open
  deriving DecidableEq, Repr

/-- `CircuitBreakerConfig` with the source's defaults. -/
structure CircuitBreakerConfig where
  failure_threshold : Nat := 3
  success_threshold : Nat := 2
  reset_timeout : ℚ := 30
  half_open_max_calls : Nat := 3
  failure_status_codes : List StatusCode :=
    [.unavailable, .deadline_exceeded, .resource_exhausted, .internal, .unknown]

/-- The mutable fields of a `CircuitBreaker` instance (the `__init__`
defaults).  `_state_changes` keeps the `(from, to, timestamp)` log. -/
structure CircuitBreaker where
  _state : CircuitBreakerState := .closed
  _failure_count : Nat := 0
  _success_count : Nat := 0
  _last_failure_time : Option ℚ := none
  _half_open_calls : Nat := 0
  _total_calls : Nat := 0
  _total_failures : Nat := 0
  _total_successes : Nat := 0
  _state_changes : List (CircuitBreakerState × CircuitBreakerState × ℚ) := []

/-- `CircuitBreaker._should_attempt_reset`: true when a failure time is set
and `now - last_failure_time >= reset_timeout`. -/
def CircuitBreaker._should_attempt_reset (cfg : CircuitBreakerConfig)
    (cb : CircuitBreaker) (now : ℚ) : Bool :=
  match cb._last_failure_time with
  | none => false
  | some t => decide (cfg.reset_timeout ≤ now - t)

/-- `CircuitBreaker.state` property: reports HALF_OPEN for an OPEN breaker
whose reset timeout has elapsed, without mutating `_state`. -/
def CircuitBreaker.state (cfg : CircuitBreakerConfig) (cb : CircuitBreaker)
    (now : ℚ) : CircuitBreakerState :=
  if cb._state = .«open» then
    if CircuitBreaker._should_attempt_reset cfg cb now then .half_open else cb._state
  else cb._state

/-- `CircuitBreaker._transition_to`: sets `_state`, resets the counters for
the new state, and appends to the state-change log. -/
def CircuitBreaker._transition_to (cb : CircuitBreaker)
    (new_state : CircuitBreakerState) (now : ℚ) : CircuitBreaker :=
  let old_state := cb._state
  let cb1 := { cb with _state := new_state }
  let cb2 :=
    match new_state with
    | .closed => { cb1 with _failure_count := 0, _success_count := 0, _half_open_calls := 0 }
    | .half_open => { cb1 with _success_count := 0, _half_open_calls := 0 }
    | .«open» => { cb1 with _success_count := 0, _half_open_calls := 0 }
  { cb2 with _state_changes := cb2._state_changes ++ [(old_state, new_state, now)] }

/-- `CircuitBreaker.can_execute`: returns the admission decision and the
updated breaker (HALF_OPEN admission increments `_half_open_calls`). -/
def CircuitBreaker.can_execute (cfg : CircuitBreakerConfig) (cb : CircuitBreaker)
    (now : ℚ) : Bool × CircuitBreaker :=
  match CircuitBreaker.state cfg cb now with
  | .closed => (true, cb)
  | .«open» => (false, cb)
  | .half_open =>
    if cb._half_open_calls < cfg.half_open_max_calls then
      (true, { cb with _half_open_calls := cb._half_open_calls + 1 })
    else (false, cb)

/-- `CircuitBreaker.record_success`. -/
def CircuitBreaker.record_success (cfg : CircuitBreakerConfig)
    (cb : CircuitBreaker) (now : ℚ) : CircuitBreaker :=
  let cb1 := { cb with _total_calls := cb._total_calls + 1,
                       _total_successes := cb._total_successes + 1 }
  match CircuitBreaker.state cfg cb1 now with
  | .half_open =>
    let cb2 := { cb1 with _success_count := cb1._success_count + 1 }
    if cfg.success_threshold ≤ cb2._success_count then
      CircuitBreaker._transition_to cb2 .closed now
    else cb2
  | .closed =>
    if 0 < cb1._failure_count then
      { cb1 with _failure_count := cb1._failure_count - 1 }
    else cb1
  | .«open» => cb1

/-- `CircuitBreaker.record_failure`: status codes outside
`failure_status_codes` return without touching any state; a `None` status
code is counted (Python truthiness of the guard). -/
def CircuitBreaker.record_failure (cfg : CircuitBreakerConfig)
    (cb : CircuitBreaker) (now : ℚ) (status_code : Option StatusCode) :
    CircuitBreaker :=
  let counted : Bool :=
    match status_code with
    | some c => decide (c ∈ cfg.failure_status_codes)
    | none => true
  if counted then
    let cb1 := { cb with _total_calls := cb._total_calls + 1,
                         _total_failures := cb._total_failures + 1,
                         _last_failure_time := some now }
    match CircuitBreaker.state cfg cb1 now with
    | .half_open => CircuitBreaker._transition_to cb1 .«open» now
    | .closed =>
      let cb2 := { cb1 with _failure_count := cb1._failure_count + 1 }
      if cfg.failure_threshold ≤ cb2._failure_count then
        CircuitBreaker._transition_to cb2 .«open» now
      else cb2
    | .«open» => cb1
  else cb

/-- Sequence of `record_failure` calls (one per timestamp, same code). -/
def CircuitBreaker.record_failures (cfg : CircuitBreakerConfig)
    (code : Option StatusCode) : List ℚ → CircuitBreaker → CircuitBreaker
  | [], cb => cb
  | t :: ts, cb =>
    CircuitBreaker.record_failures cfg code ts (CircuitBreaker.record_failure cfg cb t code)

/-- Sequence of `record_success` calls (one per timestamp). -/
def CircuitBreaker.record_successes (cfg : CircuitBreakerConfig) :
    List ℚ → CircuitBreaker → CircuitBreaker
  | [], cb => cb
  | t :: ts, cb =>
    CircuitBreaker.record_successes cfg ts (CircuitBreaker.record_success cfg cb t)

/-- Concrete breaker scenario used by counterexample/witness theorems: the
default config. -/
def cbDefaultConfig : CircuitBreakerConfig := {}

/-- A breaker observed in (derived) HALF_OPEN: `_state` is OPEN, the last
failure happened at time 0, and one call was admitted. -/
def cbHalfOpenExample : CircuitBreaker :=
  { _state := .«open», _failure_count := 3, _success_count := 0,
    _last_failure_time := some 0, _half_open_calls := 1 }

/-! ## Retry engine (`src/services/interceptors/retry.py`) -/

/-- `RetryPolicy` with the source's defaults. -/
structure RetryPolicy where
  max_attempts : Nat := 4
  initial_backoff : ℚ := 1
  max_backoff : ℚ := 30
  backoff_multiplier : ℚ := 2
  jitter : ℚ := 1/5
  retryable_status_codes : List StatusCode :=
    [.unavailable, .deadline_exceeded, .resource_exhausted, .aborted]

/-- Outcome of one invocation of the continuation (the downstream pipeline):
either a response or an `AioRpcError` carrying a status code. -/
inductive CallOutcome (α : Type) where
  | success (response : α)
  | failure (code : StatusCode)
  deriving DecidableEq, Repr

/-- What `RetryInterceptor.intercept_unary_unary` ends with: a returned
response, a re-raised RPC error, or the dead-code `RuntimeError`. -/
inductive RetryResult (α : Type) where
  | response (r : α)
  | raised (code : StatusCode)
  | runtime_error
  deriving DecidableEq, Repr

/-- `RetryInterceptor._calculate_backoff`, with the `random.uniform` draw
passed in as `u` (constrained to `|u| ≤ jitter * backoff` by theorems). -/
def RetryInterceptor._calculate_backoff (p : RetryPolicy) (attempt : Nat)
    (u : ℚ) : ℚ :=
  let backoff := min (p.initial_backoff * p.backoff_multiplier ^ attempt) p.max_backoff
  backoff + u

/-- `RetryInterceptor._is_retryable`. -/
def RetryInterceptor._is_retryable (p : RetryPolicy) (status_code : StatusCode) : Bool :=
  decide (status_code ∈ p.retryable_status_codes)

/-- The `for attempt in range(self.policy.max_attempts)` loop of
`intercept_unary_unary`.  `remaining` counts the iterations left
(`max_attempts - attempt`), `last` is `last_exception`.  The trace returned
is `(result, number of continuation invocations, backoff sleeps performed)`.
A retryable failure sleeps only while `attempt < max_attempts - 1`, i.e.
while at least one further iteration remains. -/
def RetryInterceptor._retry_loop {α : Type} (p : RetryPolicy)
    (continuation : Nat → CallOutcome α) (u : Nat → ℚ) :
    Nat → Nat → Option StatusCode → RetryResult α × Nat × List ℚ
  | 0, _, last =>
    (match last with
     | some c => .raised c
     | none => .runtime_error, 0, [])
  | remaining + 1, attempt, _ =>
    match continuation attempt with
    | .success r => (.response r, 1, [])
    | .failure c =>
      if RetryInterceptor._is_retryable p c = false then (.raised c, 1, [])
      else if 1 ≤ remaining then
        let backoff := RetryInterceptor._calculate_backoff p attempt (u attempt)
        let rest := RetryInterceptor._retry_loop p continuation u remaining (attempt + 1) (some c)
        (rest.1, rest.2.1 + 1, backoff :: rest.2.2)
      else
        let rest := RetryInterceptor._retry_loop p continuation u remaining (attempt + 1) (some c)
        (rest.1, rest.2.1 + 1, rest.2.2)

/-- `RetryInterceptor.intercept_unary_unary`: run the retry loop from
attempt 0 with no recorded exception. -/
def RetryInterceptor.intercept_unary_unary {α : Type} (p : RetryPolicy)
    (continuation : Nat → CallOutcome α) (u : Nat → ℚ) :
    RetryResult α × Nat × List ℚ :=
  RetryInterceptor._retry_loop p continuation u p.max_attempts 0 none

/-- Retry policy used by the witness theorems: zero jitter, three attempts. -/
def retryPolicyW : RetryPolicy := { max_attempts := 3, jitter := 0 }

/-- Continuation that always fails with the non-retryable NOT_FOUND. -/
def contNotFound : Nat → CallOutcome String := fun _ => .failure .not_found

/-- Continuation that always fails with the retryable UNAVAILABLE. -/
def contUnavailable : Nat → CallOutcome String := fun _ => .failure .unavailable

/-! ## Adaptive timeout (`src/services/interceptors/adaptive_timeout.py`) -/

/-- `TimeoutConfig` with the source's defaults, including the default
per-method timeout table. -/
structure TimeoutConfig where
  default_timeout : ℚ := 30
  min_timeout : ℚ := 5
  max_timeout : ℚ := 120
  method_timeouts : List (String × ℚ) :=
    [("HealthCheck", 5), ("CreatePlan", 60), ("GenerateCode", 90),
     ("StreamPlan", 120), ("Analyze", 45), ("ReviewCode", 60),
     ("Execute", 30), ("StreamExecute", 120)]
  adaptive_enabled : Bool := true
  percentile : ℚ := 95
  history_size : Nat := 100
  adjustment_factor : ℚ := 3/2

/-- `TimeoutManager`: the response-time store `_response_times` is a
`defaultdict(list)`, modelled as a total function with default `[]`. -/
structure TimeoutManager where
  config : TimeoutConfig
  _response_times : String → List ℚ := fun _ => []

/-- `TimeoutManager.record_response_time`: append the duration to the
method's history and drop the oldest entry when the history exceeds
`history_size`. -/
def TimeoutManager.record_response_time (m : TimeoutManager) (method : String)
    (duration : ℚ) : TimeoutManager :=
  let history := m._response_times method ++ [duration]
  let history := if m.config.history_size < history.length then history.tail else history
  { m with _response_times := fun s => if s = method then history else m._response_times s }

/-- Python `int()` on a rational: truncation toward zero. -/
def pyInt (q : ℚ) : Int :=
  if q < 0 then -⌊-q⌋ else ⌊q⌋

/-- Python `list[i]` with negative-index wrapping (out-of-range indices,
which raise `IndexError` in Python, are glossed as `0`; no caller in this
development reaches them). -/
def pyListGet (l : List ℚ) (i : Int) : ℚ :=
  if 0 ≤ i then l.getD i.toNat 0 else l.getD (l.length - (-i).toNat) 0

/-- `TimeoutManager._get_percentile`: Python `sorted(data)` then
`data[min(int(len * percentile / 100), len - 1)]`. -/
def TimeoutManager._get_percentile (cfg : TimeoutConfig) (data : List ℚ)
    (percentile : ℚ) : ℚ :=
  if data = [] then cfg.default_timeout
  else
    let sorted_data := List.insertionSort (fun a b => a ≤ b) data
    let index : Int := pyInt ((data.length : ℚ) * percentile / 100)
    let index2 : Int := min index ((data.length : Int) - 1)
    pyListGet sorted_data index2

/-- Python `str.split(sep)` for a one-character separator, on the character
list of a string. -/
def splitOnChar (sep : Char) : List Char → List (List Char)
  | [] => [[]]
  | c :: cs =>
    let r := splitOnChar sep cs
    if c = sep then [] :: r
    else
      match r with
      | [] => [[c]]
      | g :: gs => (c :: g) :: gs

/-- Python `s.split("/")`. -/
def strSplitSlash (s : String) : List String :=
  (splitOnChar '/' s.toList).map String.mk

/-- `TimeoutManager._extract_method_name`: the final `/`-separated segment
of the method path (the `bytes` branch is not modelled; inputs are
strings). -/
def TimeoutManager._extract_method_name (full_method : String) : String :=
  if full_method.toList.contains '/' then
    (strSplitSlash full_method).getLastD full_method
  else full_method

/-- `TimeoutManager.get_timeout`. -/
def TimeoutManager.get_timeout (m : TimeoutManager) (method : String) : ℚ :=
  let method_name := TimeoutManager._extract_method_name method
  let base_timeout := (m.config.method_timeouts.lookup method_name).getD m.config.default_timeout
  if m.config.adaptive_enabled = false then base_timeout
  else
    let history := m._response_times method_name
    if history.length < 10 then base_timeout
    else
      let p95_time := TimeoutManager._get_percentile m.config history m.config.percentile
      let adaptive_timeout := p95_time * m.config.adjustment_factor
      max m.config.min_timeout
        (min adaptive_timeout (min m.config.max_timeout (base_timeout * 2)))

/-- The estimator as the specification states it: below 10 samples return
the base, otherwise the sorted-window sample at index
`floor(len * percentile / 100)` (clamped to the last index) times the
adjustment factor, clamped below by `min_timeout` and above by
`min(max_timeout, 2 * base)`. -/
def specAdaptiveTimeout (m : TimeoutManager) (method : String) : ℚ :=
  let name := TimeoutManager._extract_method_name method
  let base := (m.config.method_timeouts.lookup name).getD m.config.default_timeout
  let window := m._response_times name
  if m.config.adaptive_enabled = false ∨ window.length < 10 then base
  else
    let sorted := List.insertionSort (fun a b => a ≤ b) window
    let idx := min (⌊(window.length : ℚ) * m.config.percentile / 100⌋).toNat (window.length - 1)
    let picked := sorted.getD idx 0 * m.config.adjustment_factor
    max m.config.min_timeout (min picked (min m.config.max_timeout (2 * base)))

/-- The state effect of `AdaptiveTimeoutInterceptor.intercept_unary_unary`
on the timeout manager: the timeout is computed by `get_timeout` on the
full method path, and — whether the continuation succeeds or raises — the
measured duration is recorded under that same full path. -/
def AdaptiveTimeoutInterceptor.intercept_unary_unary (m : TimeoutManager)
    (method : String) (duration : ℚ) : ℚ × TimeoutManager :=
  (TimeoutManager.get_timeout m method,
   TimeoutManager.record_response_time m method duration)

/-- A sequence of completed calls through the adaptive-timeout interceptor,
all to the same method path. -/
def AdaptiveTimeoutInterceptor.intercept_calls (method : String) :
    List ℚ → TimeoutManager → TimeoutManager
  | [], m => m
  | d :: ds, m =>
    AdaptiveTimeoutInterceptor.intercept_calls method ds
      (AdaptiveTimeoutInterceptor.intercept_unary_unary m method d).2

/-- Fresh timeout manager with the default config. -/
def tmDefault : TimeoutManager := { config := {} }

/-- Ten completed calls to the slashed path `svc.Group/Method`, 1 second
each. -/
def tmAfterTen : TimeoutManager :=
  AdaptiveTimeoutInterceptor.intercept_calls "svc.Group/Method"
    (List.replicate 10 1) tmDefault

/-! ## Streaming checkpoint (`src/services/streaming_checkpoint.py`) -/

/-- `StreamCheckpoint` (metadata entries modelled as string pairs). -/
structure StreamCheckpoint where
  stream_id : String
  last_sequence : Nat
  last_content : String
  progress_percent : ℚ
  timestamp : ℚ
  metadata : List (String × String) := []
  deriving DecidableEq, Repr

/-- `StreamState`. -/
structure StreamState where
  stream_id : String
  started_at : ℚ
  checkpoints : List StreamCheckpoint := []
  completed : Bool := false
  error : Option String := none
  total_messages : Nat := 0
  deriving DecidableEq, Repr

/-- `StreamState.last_checkpoint` property. -/
def StreamState.last_checkpoint (s : StreamState) : Option StreamCheckpoint :=
  s.checkpoints.getLast?

/-- `StreamState.can_resume` property: `not self.completed and
self.last_checkpoint is not None` (note: `error` is not consulted). -/
def StreamState.can_resume (s : StreamState) : Bool :=
  !s.completed && s.last_checkpoint.isSome

/-- `StreamCheckpointManager` (constructor defaults). -/
structure StreamCheckpointManager where
  checkpoint_interval : Nat := 10
  max_streams : Nat := 100
  ttl : ℚ := 3600
  _streams : List (String × StreamState) := []

/-- `StreamCheckpointManager._cleanup_expired`: drop streams with
`now - started_at > ttl`. -/
def StreamCheckpointManager._cleanup_expired (m : StreamCheckpointManager)
    (now : ℚ) : List (String × StreamState) :=
  m._streams.filter (fun e => decide (now - e.2.started_at ≤ m.ttl))

/-- The entry with the minimal `started_at` (first such in iteration order,
as Python `min` ties break). -/
def StreamCheckpointManager._oldest_entry :
    List (String × StreamState) → Option (String × StreamState)
  | [] => none
  | e :: rest =>
    match StreamCheckpointManager._oldest_entry rest with
    | none => some e
    | some e2 => if e2.2.started_at < e.2.started_at then some e2 else some e

/-- `StreamCheckpointManager._evict_oldest`. -/
def StreamCheckpointManager._evict_oldest (streams : List (String × StreamState)) :
    List (String × StreamState) :=
  match StreamCheckpointManager._oldest_entry streams with
  | none => streams
  | some e => dictRemove streams e.1

/-- `StreamCheckpointManager.start_stream`: TTL sweep, LRU eviction at the
cap, then unconditionally install a fresh `StreamState` for `stream_id`. -/
def StreamCheckpointManager.start_stream (m : StreamCheckpointManager)
    (stream_id : String) (now : ℚ) : StreamCheckpointManager × StreamState :=
  let streams := StreamCheckpointManager._cleanup_expired m now
  let streams :=
    if m.max_streams ≤ streams.length then
      StreamCheckpointManager._evict_oldest streams
    else streams
  let st : StreamState := { stream_id := stream_id, started_at := now }
  ({ m with _streams := dictSet streams stream_id st }, st)

/-- `StreamCheckpointManager.checkpoint`: updates `total_messages` and, when
`sequence % interval == 0` or progress is at least 100, appends a
checkpoint. -/
def StreamCheckpointManager.checkpoint (m : StreamCheckpointManager)
    (stream_id : String) (sequence : Nat) (content : String)
    (progress_percent : ℚ) (now : ℚ) :
    StreamCheckpointManager × Option StreamCheckpoint :=
  match dictGet m._streams stream_id with
  | none => (m, none)
  | some st =>
    let st1 := { st with total_messages := sequence + 1 }
    if sequence % m.checkpoint_interval = 0 ∨ 100 ≤ progress_percent then
      let cp : StreamCheckpoint :=
        { stream_id := stream_id, last_sequence := sequence, last_content := content,
          progress_percent := progress_percent, timestamp := now }
      let st2 := { st1 with checkpoints := st1.checkpoints ++ [cp] }
      ({ m with _streams := dictSet m._streams stream_id st2 }, some cp)
    else
      ({ m with _streams := dictSet m._streams stream_id st1 }, none)

/-- `StreamCheckpointManager.get_resume_point`. -/
def StreamCheckpointManager.get_resume_point (m : StreamCheckpointManager)
    (stream_id : String) : Option StreamCheckpoint :=
  match dictGet m._streams stream_id with
  | some st => if st.can_resume then st.last_checkpoint else none
  | none => none

/-- `StreamCheckpointManager.complete_stream`. -/
def StreamCheckpointManager.complete_stream (m : StreamCheckpointManager)
    (stream_id : String) : StreamCheckpointManager :=
  match dictGet m._streams stream_id with
  | none => m
  | some st =>
    { m with _streams := dictSet m._streams stream_id { st with completed := true } }

/-- `StreamCheckpointManager.fail_stream`. -/
def StreamCheckpointManager.fail_stream (m : StreamCheckpointManager)
    (stream_id : String) (error : String) : StreamCheckpointManager :=
  match dictGet m._streams stream_id with
  | none => m
  | some st =>
    { m with _streams := dictSet m._streams stream_id { st with error := some error } }

/-- A message yielded by the underlying stream: its `content` and
`progress_percent` attributes as read by `ResumableStreamWrapper`. -/
structure StreamMessage where
  content : String
  progress_percent : ℚ
  deriving DecidableEq, Repr

/-- Which factory `ResumableStreamWrapper.__aiter__` opens the stream
with. -/
inductive FactoryChoice where
  | fresh
  | resumed (from_sequence : Nat)
  deriving DecidableEq, Repr

/-- The factory selection in `__aiter__`: `resume_factory` is used only when
a resume point exists and a resume factory was supplied. -/
def ResumableStreamWrapper.choose_factory (resume_point : Option StreamCheckpoint)
    (has_resume_factory : Bool) : FactoryChoice :=
  match resume_point, has_resume_factory with
  | some cp, true => .resumed cp.last_sequence
  | _, _ => .fresh

/-- The start of `ResumableStreamWrapper.__aiter__`: `start_stream`, then
`get_resume_point` on the same id. -/
def ResumableStreamWrapper.aiter_start (m : StreamCheckpointManager)
    (stream_id : String) (now : ℚ) :
    StreamCheckpointManager × Option StreamCheckpoint :=
  let m1 := (StreamCheckpointManager.start_stream m stream_id now).1
  (m1, StreamCheckpointManager.get_resume_point m1 stream_id)

/-- The message loop of `ResumableStreamWrapper.__aiter__`: for each message
the wrapper increments `_sequence` and then checkpoints it; on exhaustion it
completes the stream.  The second component collects the sequence numbers
passed to `checkpoint`, in order. -/
def ResumableStreamWrapper.run_loop (m : StreamCheckpointManager)
    (stream_id : String) (now : ℚ) (sequence : Nat) :
    List StreamMessage → StreamCheckpointManager × List Nat
  | [] => (StreamCheckpointManager.complete_stream m stream_id, [])
  | msg :: rest =>
    let seq2 := sequence + 1
    let m2 := (StreamCheckpointManager.checkpoint m stream_id seq2 msg.content
      msg.progress_percent now).1
    let r := ResumableStreamWrapper.run_loop m2 stream_id now seq2 rest
    (r.1, seq2 :: r.2)

/-- Checkpoint used in the stream counterexample. -/
def cpExample : StreamCheckpoint :=
  { stream_id := "s1", last_sequence := 2, last_content := "x",
    progress_percent := 40, timestamp := 0 }

/-- A stream that failed (`error` set) but was never completed, holding one
checkpoint. -/
def stFailedExample : StreamState :=
  { stream_id := "s1", started_at := 0, checkpoints := [cpExample],
    completed := false, error := some "boom", total_messages := 3 }

/-- Manager holding just the failed stream. -/
def mgrFailedExample : StreamCheckpointManager :=
  { _streams := [("s1", stFailedExample)] }

/-- A completed stream holding one checkpoint, and a manager holding it. -/
def stCompletedExample : StreamState :=
  { stream_id := "s2", started_at := 0, checkpoints := [cpExample],
    completed := true, total_messages := 3 }

/-- Manager holding just the completed stream. -/
def mgrCompletedExample : StreamCheckpointManager :=
  { _streams := [("s2", stCompletedExample)] }

/-! ## Fallback (`src/services/fallback.py`) -/

/-- `CacheEntry`. -/
structure CacheEntry (T : Type) where
  value : T
  timestamp : ℚ
  ttl : ℚ

/-- `CacheEntry.is_expired` property: `now - timestamp > ttl`. -/
def CacheEntry.is_expired {T : Type} (e : CacheEntry T) (now : ℚ) : Bool :=
  decide (e.ttl < now - e.timestamp)

/-- `FallbackConfig` with the source's defaults. -/
structure FallbackConfig where
  cache_enabled : Bool := true
  cache_ttl : ℚ := 300
  max_cache_size : Nat := 1000
  rule_based_enabled : Bool := true

/-- `FallbackCache`. -/
structure FallbackCache (T : Type) where
  config : FallbackConfig
  _cache : List (String × CacheEntry T) := []

/-- `FallbackCache._make_key`: `f"{method}:{hash(str(request))}"`, with the
Python `hash(str(·))` supplied as `hashFn`. -/
def FallbackCache._make_key {Req : Type} (hashFn : Req → Int) (method : String)
    (request : Req) : String :=
  method ++ ":" ++ toString (hashFn request)

/-- `FallbackCache.get`: a disabled cache yields nothing; an expired entry
is deleted and yields nothing; otherwise the cached value is returned. -/
def FallbackCache.get {T Req : Type} (c : FallbackCache T) (hashFn : Req → Int)
    (now : ℚ) (method : String) (request : Req) : Option T × FallbackCache T :=
  if c.config.cache_enabled = false then (none, c)
  else
    let key := FallbackCache._make_key hashFn method request
    match dictGet c._cache key with
    | none => (none, c)
    | some entry =>
      if entry.is_expired now then (none, { c with _cache := dictRemove c._cache key })
      else (some entry.value, c)

/-- The method-name extraction shared by the fallback handlers:
`method.split("/")[-1] if "/" in method else method`. -/
def fallbackMethodName (method : String) : String :=
  if method.toList.contains '/' then (strSplitSlash method).getLastD method
  else method

/-- Whether the first list is an initial segment of the second. -/
def charsStartWith : List Char → List Char → Bool
  | [], _ => true
  | _ :: _, [] => false
  | p :: ps, c :: cs => p = c && charsStartWith ps cs

/-- Python `pattern in text` on strings: substring containment. -/
def strContainsSub (pattern : String) (text : String) : Bool :=
  go pattern.toList text.toList
where
  go : List Char → List Char → Bool
    | pat, [] => pat.isEmpty
    | pat, c :: cs => charsStartWith pat (c :: cs) || go pat cs

/-- `RuleBasedFallback.handle`: the first rule whose pattern is a substring
of the method name fires, and its result — even `None` — is returned.
Handler exceptions (logged and skipped in the source) are not modelled; a
handler is a total function returning its value or `None`. -/
def RuleBasedFallback.handle {T Req : Type}
    (rules : List (String × (Req → Option T))) (method : String)
    (request : Req) : Option T :=
  let method_name := fallbackMethodName method
  match rules.find? (fun pr => strContainsSub pr.1 method_name) with
  | some pr => pr.2 request
  | none => none

/-- `FallbackManager`: cache, rule table, and per-service custom handlers. -/
structure FallbackManager (T Req : Type) where
  config : FallbackConfig
  cache : FallbackCache T
  rule_rules : List (String × (Req → Option T)) := []
  _custom_handlers : List (String × (String → Req → Option T)) := []

/-- `FallbackManager.get_fallback`: cache, then the per-service custom
handler, then (when enabled) the rule chain; the first non-`None` result is
returned. -/
def FallbackManager.get_fallback {T Req : Type} (m : FallbackManager T Req)
    (hashFn : Req → Int) (now : ℚ) (service_name method : String)
    (request : Req) : Option T × FallbackManager T Req :=
  let cr := FallbackCache.get m.cache hashFn now method request
  let m1 := { m with cache := cr.2 }
  match cr.1 with
  | some v => (some v, m1)
  | none =>
    let ruleStage : Option T :=
      if m1.config.rule_based_enabled then
        RuleBasedFallback.handle m1.rule_rules method request
      else none
    match dictGet m1._custom_handlers service_name with
    | some h =>
      match h method request with
      | some r => (some r, m1)
      | none => (ruleStage, m1)
    | none => (ruleStage, m1)

/-- First non-`None` of three optional results (the claim's resolution
order). -/
def firstSome {T : Type} (a b c : Option T) : Option T :=
  match a with
  | some v => some v
  | none =>
    match b with
    | some v => some v
    | none => c

/-! ## Connection pool (`src/gateway/connection_pool.py`) -/

/-- `PoolConfig` with the source's defaults. -/
structure PoolConfig where
  min_size : Nat := 2
  max_size : Nat := 10
  max_idle_time : ℚ := 300
  acquire_timeout : ℚ := 30
  health_check_interval : ℚ := 60

/-- `PooledConnection` (the wrapped connection object itself is opaque; a
pool-wide id stands for Python object identity). -/
structure PooledConnection where
  created_at : ℚ
  last_used_at : ℚ
  use_count : Nat := 0
  is_healthy : Bool := true
  deriving DecidableEq, Repr

/-- `PooledConnection.mark_used`. -/
def PooledConnection.mark_used (c : PooledConnection) (now : ℚ) : PooledConnection :=
  { c with last_used_at := now, use_count := c.use_count + 1 }

/-- `ConnectionPool` state: `_pool` is the FIFO `asyncio.Queue` (front of
the list is the next `get()`), `_all_connections` the all-connections list,
and `_conn` maps each id to its `PooledConnection` record. -/
structure ConnectionPool where
  config : PoolConfig
  _pool : List Nat := []
  _all_connections : List Nat := []
  _conn : List (Nat × PooledConnection) := []
  _next_id : Nat := 0
  _closed : Bool := false
  _total_acquired : Nat := 0
  _total_released : Nat := 0
  _total_created : Nat := 0
  _total_destroyed : Nat := 0

/-- `ConnectionPool._create_connection`: build a fresh healthy connection,
append it to `_all_connections`, put it on the idle queue. -/
def ConnectionPool._create_connection (p : ConnectionPool) (now : ℚ) :
    ConnectionPool × Nat :=
  let id := p._next_id
  let pooled : PooledConnection := { created_at := now, last_used_at := now }
  ({ p with _conn := dictSet p._conn id pooled,
            _all_connections := p._all_connections ++ [id],
            _pool := p._pool ++ [id],
            _next_id := id + 1,
            _total_created := p._total_created + 1 }, id)

/-- `ConnectionPool._destroy_connection`: remove from `_all_connections` (if
present) and count the destruction; `disconnect` is an external effect. -/
def ConnectionPool._destroy_connection (p : ConnectionPool) (id : Nat) :
    ConnectionPool :=
  { p with _all_connections := p._all_connections.erase id,
           _total_destroyed := p._total_destroyed + 1 }

/-- Health flag of a pooled connection (absent ids — impossible for live
pools — read as unhealthy). -/
def ConnectionPool.conn_is_healthy (p : ConnectionPool) (id : Nat) : Bool :=
  match dictGet p._conn id with
  | some c => c.is_healthy
  | none => false

/-- `mark_used` applied to a connection inside the pool's `_conn` table. -/
def ConnectionPool.mark_used_in_pool (p : ConnectionPool) (id : Nat) (now : ℚ) :
    ConnectionPool :=
  match dictGet p._conn id with
  | none => p
  | some c => { p with _conn := dictSet p._conn id (c.mark_used now) }

/-- The revalidation step of `_health_check_loop` for one connection: the
health checker's verdict is written to `is_healthy`. -/
def ConnectionPool.set_health (p : ConnectionPool) (id : Nat) (healthy : Bool) :
    ConnectionPool :=
  match dictGet p._conn id with
  | none => p
  | some c => { p with _conn := dictSet p._conn id { c with is_healthy := healthy } }

/-- The dequeue branch of `ConnectionPool.acquire` (idle queue non-empty, so
`wait_for(self._pool.get(), ...)` returns): take the front connection; if it
is unhealthy, destroy it, `_create_connection` a replacement (which also
enqueues it) and then perform the discarded `await self._pool.get()`, which
pops the queue FRONT; finally `mark_used`, count the acquisition and hand
the connection to the caller.  Returns the pool and the id the caller
holds. -/
def ConnectionPool.acquire_from_queue (p : ConnectionPool) (now : ℚ) :
    ConnectionPool × Option Nat :=
  match p._pool with
  | [] => (p, none)
  | c :: rest =>
    let p1 := { p with _pool := rest }
    if ConnectionPool.conn_is_healthy p1 c = false then
      let p2 := ConnectionPool._destroy_connection p1 c
      let cr := ConnectionPool._create_connection p2 now
      let p3 := cr.1
      match p3._pool with
      | [] => (p3, none)
      | _ :: rest2 =>
        let p4 := { p3 with _pool := rest2 }
        let p5 := ConnectionPool.mark_used_in_pool p4 cr.2 now
        ({ p5 with _total_acquired := p5._total_acquired + 1 }, some cr.2)
    else
      let p2 := ConnectionPool.mark_used_in_pool p1 c now
      ({ p2 with _total_acquired := p2._total_acquired + 1 }, some c)

/-- The `finally` block of `acquire`: an open pool returns the held
connection to the idle queue. -/
def ConnectionPool.release (p : ConnectionPool) (id : Nat) : ConnectionPool :=
  if p._closed then p
  else { p with _pool := p._pool ++ [id],
                _total_released := p._total_released + 1 }

/-- Pool scenario for the partition-invariant analysis: two idle
connections created at time 0, after which the health loop marks
connection 0 unhealthy. -/
def poolTwoConns : ConnectionPool :=
  let p0 : ConnectionPool := { config := {} }
  let p1 := (ConnectionPool._create_connection p0 0).1
  let p2 := (ConnectionPool._create_connection p1 0).1
  ConnectionPool.set_health p2 0 false

/-- The state after one `acquire` against `poolTwoConns`. -/
def poolAfterAcquire : ConnectionPool × Option Nat :=
  ConnectionPool.acquire_from_queue poolTwoConns 1

/-- Retry policy with zero jitter and two attempts (witness scenario). -/
def retryPolicyZeroJitter : RetryPolicy :=
  { max_attempts := 2, initial_backoff := 1, max_backoff := 30,
    backoff_multiplier := 2, jitter := 0 }

/-! ## Theorems -/

/-- Incrementing only the call totals does not change the derived breaker
state. -/
theorem CircuitBreaker.state_after_totals (cfg : CircuitBreakerConfig)
    (cb : CircuitBreaker) (now : ℚ) :
    CircuitBreaker.state cfg
      { cb with _total_calls := cb._total_calls + 1,
                _total_successes := cb._total_successes + 1 } now
      = CircuitBreaker.state cfg cb now := rfl

/-- C4 counterexample: for the default config and a breaker observed in
HALF_OPEN with one admitted in-flight call, `record_success` increments
`_success_count` but leaves `_half_open_calls` at 1 instead of decrementing
it to 0. -/
theorem halfopen_success_no_decrement_counterexample :
    CircuitBreaker.state cbDefaultConfig cbHalfOpenExample 100 = .half_open ∧
    (CircuitBreaker.record_success cbDefaultConfig cbHalfOpenExample 100)._success_count
      = cbHalfOpenExample._success_count + 1 ∧
    ¬ ((CircuitBreaker.record_success cbDefaultConfig cbHalfOpenExample 100)._half_open_calls
        = cbHalfOpenExample._half_open_calls - 1) := by
  refine ⟨?_, ?_, ?_⟩ <;>
    simp +decide [CircuitBreaker.record_success, CircuitBreaker.state,
      CircuitBreaker._should_attempt_reset, CircuitBreaker._transition_to,
      cbHalfOpenExample, cbDefaultConfig]

/-- C4 (amended): a success recorded while the breaker is observed in
HALF_OPEN increments `_success_count`; as long as the incremented count
stays below `success_threshold`, `_half_open_calls` is left unchanged (it is
reset only by state transitions, never decremented). -/
theorem record_success_halfopen_behaviour (cfg : CircuitBreakerConfig)
    (cb : CircuitBreaker) (now : ℚ)
    (hs : CircuitBreaker.state cfg cb now = .half_open)
    (hlt : cb._success_count + 1 < cfg.success_threshold) :
    (CircuitBreaker.record_success cfg cb now)._success_count = cb._success_count + 1 ∧
    (CircuitBreaker.record_success cfg cb now)._half_open_calls = cb._half_open_calls := by
  have hstate : CircuitBreaker.state cfg
      { cb with _total_calls := cb._total_calls + 1,
                _total_successes := cb._total_successes + 1 } now = .half_open := hs
  simp only [CircuitBreaker.record_success]
  rw [hstate]
  rw [if_neg (by exact not_le.mpr hlt)]
  exact ⟨rfl, rfl⟩

/-- C4 witness: the amended statement at the concrete HALF_OPEN breaker. -/
theorem record_success_halfopen_behaviour_witness :
    (CircuitBreaker.record_success cbDefaultConfig cbHalfOpenExample 100)._success_count
      = cbHalfOpenExample._success_count + 1 ∧
    (CircuitBreaker.record_success cbDefaultConfig cbHalfOpenExample 100)._half_open_calls
      = cbHalfOpenExample._half_open_calls :=
  record_success_halfopen_behaviour cbDefaultConfig cbHalfOpenExample 100
    (by simp +decide [CircuitBreaker.state, CircuitBreaker._should_attempt_reset,
      cbHalfOpenExample, cbDefaultConfig])
    (by decide)

/-- The derived state of a breaker whose `_state` is CLOSED is CLOSED. -/
theorem CircuitBreaker.state_of_closed (cfg : CircuitBreakerConfig)
    (cb : CircuitBreaker) (now : ℚ) (hcl : cb._state = .closed) :
    CircuitBreaker.state cfg cb now = .closed := by
  simp [CircuitBreaker.state, hcl]

/-- An OPEN breaker whose reset timeout has elapsed since its last failure
is observed as HALF_OPEN. -/
theorem CircuitBreaker.state_open_elapsed (cfg : CircuitBreakerConfig)
    (cb : CircuitBreaker) (now tl : ℚ) (hst : cb._state = .«open»)
    (hlf : cb._last_failure_time = some tl)
    (h : cfg.reset_timeout ≤ now - tl) :
    CircuitBreaker.state cfg cb now = .half_open := by
  simp [CircuitBreaker.state, CircuitBreaker._should_attempt_reset, hst, hlf, h]

/-- A counted failure on a CLOSED breaker below the threshold: increments
the failure count and stamps the failure time, no transition. -/
theorem CircuitBreaker.record_failure_closed_nontrip (cfg : CircuitBreakerConfig)
    (cb : CircuitBreaker) (now : ℚ) (c : StatusCode)
    (hc : c ∈ cfg.failure_status_codes) (hcl : cb._state = .closed)
    (hlt : cb._failure_count + 1 < cfg.failure_threshold) :
    CircuitBreaker.record_failure cfg cb now (some c) =
      { cb with _total_calls := cb._total_calls + 1,
                _total_failures := cb._total_failures + 1,
                _last_failure_time := some now,
                _failure_count := cb._failure_count + 1 } := by
  have hstate : CircuitBreaker.state cfg
      { cb with _total_calls := cb._total_calls + 1,
                _total_failures := cb._total_failures + 1,
                _last_failure_time := some now } now = .closed := by
    simp [CircuitBreaker.state, hcl]
  simp only [CircuitBreaker.record_failure]
  rw [decide_eq_true hc]
  rw [if_pos rfl]
  rw [hstate]
  rw [if_neg (by exact not_le.mpr hlt)]

/-- A counted failure on a CLOSED breaker that reaches the threshold trips
the breaker to OPEN. -/
theorem CircuitBreaker.record_failure_closed_trip (cfg : CircuitBreakerConfig)
    (cb : CircuitBreaker) (now : ℚ) (c : StatusCode)
    (hc : c ∈ cfg.failure_status_codes) (hcl : cb._state = .closed)
    (hge : cfg.failure_threshold ≤ cb._failure_count + 1) :
    CircuitBreaker.record_failure cfg cb now (some c) =
      CircuitBreaker._transition_to
        { cb with _total_calls := cb._total_calls + 1,
                  _total_failures := cb._total_failures + 1,
                  _last_failure_time := some now,
                  _failure_count := cb._failure_count + 1 } .«open» now := by
  have hstate : CircuitBreaker.state cfg
      { cb with _total_calls := cb._total_calls + 1,
                _total_failures := cb._total_failures + 1,
                _last_failure_time := some now } now = .closed := by
    simp [CircuitBreaker.state, hcl]
  simp only [CircuitBreaker.record_failure]
  rw [decide_eq_true hc]
  rw [if_pos rfl]
  rw [hstate]
  rw [if_pos hge]

/-- A success on a breaker observed HALF_OPEN, staying below the success
threshold: increments the success count only. -/
theorem CircuitBreaker.record_success_halfopen_nonclose (cfg : CircuitBreakerConfig)
    (cb : CircuitBreaker) (now : ℚ)
    (hs : CircuitBreaker.state cfg cb now = .half_open)
    (hlt : cb._success_count + 1 < cfg.success_threshold) :
    CircuitBreaker.record_success cfg cb now =
      { cb with _total_calls := cb._total_calls + 1,
                _total_successes := cb._total_successes + 1,
                _success_count := cb._success_count + 1 } := by
  have hstate : CircuitBreaker.state cfg
      { cb with _total_calls := cb._total_calls + 1,
                _total_successes := cb._total_successes + 1 } now = .half_open := hs
  simp only [CircuitBreaker.record_success]
  rw [hstate]
  rw [if_neg (by exact not_le.mpr hlt)]

/-- A success on a breaker observed HALF_OPEN that reaches the success
threshold closes the breaker. -/
theorem CircuitBreaker.record_success_halfopen_close (cfg : CircuitBreakerConfig)
    (cb : CircuitBreaker) (now : ℚ)
    (hs : CircuitBreaker.state cfg cb now = .half_open)
    (hge : cfg.success_threshold ≤ cb._success_count + 1) :
    CircuitBreaker.record_success cfg cb now =
      CircuitBreaker._transition_to
        { cb with _total_calls := cb._total_calls + 1,
                  _total_successes := cb._total_successes + 1,
                  _success_count := cb._success_count + 1 } .closed now := by
  have hstate : CircuitBreaker.state cfg
      { cb with _total_calls := cb._total_calls + 1,
                _total_successes := cb._total_successes + 1 } now = .half_open := hs
  simp only [CircuitBreaker.record_success]
  rw [hstate]
  rw [if_pos hge]

/-- Admission against a breaker observed HALF_OPEN below the concurrency
cap: admit and increment the in-flight counter. -/
theorem CircuitBreaker.can_execute_halfopen_admit (cfg : CircuitBreakerConfig)
    (cb : CircuitBreaker) (now : ℚ)
    (hs : CircuitBreaker.state cfg cb now = .half_open)
    (hlt : cb._half_open_calls < cfg.half_open_max_calls) :
    CircuitBreaker.can_execute cfg cb now =
      (true, { cb with _half_open_calls := cb._half_open_calls + 1 }) := by
  simp only [CircuitBreaker.can_execute]
  rw [hs]
  rw [if_pos hlt]

/-- Admission against a CLOSED breaker always succeeds and changes
nothing. -/
theorem CircuitBreaker.can_execute_closed (cfg : CircuitBreakerConfig)
    (cb : CircuitBreaker) (now : ℚ)
    (hcl : cb._state = .closed) :
    CircuitBreaker.can_execute cfg cb now = (true, cb) := by
  simp only [CircuitBreaker.can_execute]
  rw [CircuitBreaker.state_of_closed cfg cb now hcl]

/-- Recording `failure_threshold` counted failures from CLOSED (failure
count making up the difference) trips the breaker to OPEN, with the last
failure time stamped from the last timestamp and the HALF_OPEN counters
zeroed. -/
theorem CircuitBreaker.record_failures_trip (cfg : CircuitBreakerConfig)
    (c : StatusCode) (hc : c ∈ cfg.failure_status_codes) :
    ∀ (ts : List ℚ) (cb : CircuitBreaker), cb._state = .closed →
      cb._failure_count + ts.length = cfg.failure_threshold → ts ≠ [] →
      (CircuitBreaker.record_failures cfg (some c) ts cb)._state = .«open» ∧
      (CircuitBreaker.record_failures cfg (some c) ts cb)._last_failure_time = ts.getLast? ∧
      (CircuitBreaker.record_failures cfg (some c) ts cb)._success_count = 0 ∧
      (CircuitBreaker.record_failures cfg (some c) ts cb)._half_open_calls = 0 := by
  intro ts
  induction ts with
  | nil => intro cb _ _ hne; exact absurd rfl hne
  | cons t ts ih =>
    intro cb hcl hcount _
    cases ts with
    | nil =>
      have hge : cfg.failure_threshold ≤ cb._failure_count + 1 := by
        simp at hcount; omega
      simp only [CircuitBreaker.record_failures]
      rw [CircuitBreaker.record_failure_closed_trip cfg cb t c hc hcl hge]
      exact ⟨rfl, rfl, rfl, rfl⟩
    | cons t2 ts2 =>
      have hlt : cb._failure_count + 1 < cfg.failure_threshold := by
        simp at hcount; omega
      simp only [CircuitBreaker.record_failures]
      rw [CircuitBreaker.record_failure_closed_nontrip cfg cb t c hc hcl hlt]
      rw [List.getLast?_cons_cons]
      refine ih _ hcl ?_ (List.cons_ne_nil t2 ts2)
      simp at hcount ⊢
      omega

/-- Recording `success_threshold` successes against an OPEN breaker whose
reset timeout has elapsed before each success closes the breaker and zeroes
all its counters. -/
theorem CircuitBreaker.record_successes_close (cfg : CircuitBreakerConfig) (tl : ℚ) :
    ∀ (ts : List ℚ) (cb : CircuitBreaker), cb._state = .«open» →
      cb._last_failure_time = some tl →
      (∀ s ∈ ts, cfg.reset_timeout ≤ s - tl) →
      cb._success_count + ts.length = cfg.success_threshold → ts ≠ [] →
      (CircuitBreaker.record_successes cfg ts cb)._state = .closed ∧
      (CircuitBreaker.record_successes cfg ts cb)._failure_count = 0 ∧
      (CircuitBreaker.record_successes cfg ts cb)._success_count = 0 ∧
      (CircuitBreaker.record_successes cfg ts cb)._half_open_calls = 0 := by
  intro ts
  induction ts with
  | nil => intro cb _ _ _ _ hne; exact absurd rfl hne
  | cons t ts ih =>
    intro cb hop hlf helapsed hcount _
    have hs : CircuitBreaker.state cfg cb t = .half_open :=
      CircuitBreaker.state_open_elapsed cfg cb t tl hop hlf
        (helapsed t (List.mem_cons_self t ts))
    cases ts with
    | nil =>
      have hge : cfg.success_threshold ≤ cb._success_count + 1 := by
        simp at hcount; omega
      simp only [CircuitBreaker.record_successes]
      rw [CircuitBreaker.record_success_halfopen_close cfg cb t hs hge]
      exact ⟨rfl, rfl, rfl, rfl⟩
    | cons t2 ts2 =>
      have hlt : cb._success_count + 1 < cfg.success_threshold := by
        simp at hcount; omega
      simp only [CircuitBreaker.record_successes]
      rw [CircuitBreaker.record_success_halfopen_nonclose cfg cb t hs hlt]
      refine ih _ hop hlf ?_ ?_ (List.cons_ne_nil t2 ts2)
      · intro s hsmem
        exact helapsed s (List.mem_cons_of_mem t hsmem)
      · simp at hcount ⊢
        omega

/-- C1: starting from CLOSED with zeroed counters, `failure_threshold`
failures with a breaker-tripping code move the breaker to OPEN; once
`reset_timeout` has elapsed since the last failure the next admission check
admits (observing HALF_OPEN); `success_threshold` successes then return the
breaker to CLOSED with `_failure_count`, `_success_count` and
`_half_open_calls` all zero, and a subsequent admission check admits. -/
theorem breaker_round_trip (cfg : CircuitBreakerConfig) (cb0 : CircuitBreaker)
    (code : StatusCode) (fts sts : List ℚ) (tlast T T2 : ℚ)
    (hcl : cb0._state = .closed) (hfc : cb0._failure_count = 0)
    (hsc : cb0._success_count = 0) (hhoc : cb0._half_open_calls = 0)
    (hft : 1 ≤ cfg.failure_threshold) (hst : 1 ≤ cfg.success_threshold)
    (hmax : 1 ≤ cfg.half_open_max_calls)
    (hcode : code ∈ cfg.failure_status_codes)
    (hflen : fts.length = cfg.failure_threshold)
    (hlast : fts.getLast? = some tlast)
    (hT : cfg.reset_timeout ≤ T - tlast)
    (hslen : sts.length = cfg.success_threshold)
    (hsts : ∀ s ∈ sts, cfg.reset_timeout ≤ s - tlast) :
    (CircuitBreaker.record_failures cfg (some code) fts cb0)._state = .«open» ∧
    (CircuitBreaker.can_execute cfg
      (CircuitBreaker.record_failures cfg (some code) fts cb0) T).1 = true ∧
    ((CircuitBreaker.record_successes cfg sts
        (CircuitBreaker.can_execute cfg
          (CircuitBreaker.record_failures cfg (some code) fts cb0) T).2)._state = .closed ∧
      (CircuitBreaker.record_successes cfg sts
        (CircuitBreaker.can_execute cfg
          (CircuitBreaker.record_failures cfg (some code) fts cb0) T).2)._failure_count = 0 ∧
      (CircuitBreaker.record_successes cfg sts
        (CircuitBreaker.can_execute cfg
          (CircuitBreaker.record_failures cfg (some code) fts cb0) T).2)._success_count = 0 ∧
      (CircuitBreaker.record_successes cfg sts
        (CircuitBreaker.can_execute cfg
          (CircuitBreaker.record_failures cfg (some code) fts cb0) T).2)._half_open_calls = 0) ∧
    (CircuitBreaker.can_execute cfg
      (CircuitBreaker.record_successes cfg sts
        (CircuitBreaker.can_execute cfg
          (CircuitBreaker.record_failures cfg (some code) fts cb0) T).2) T2).1 = true := by
  have hne : fts ≠ [] := by
    intro h
    rw [h] at hflen
    simp at hflen
    omega
  have htrip := CircuitBreaker.record_failures_trip cfg code hcode fts cb0 hcl
    (by omega) hne
  obtain ⟨h1state, h1last, h1sc, h1hoc⟩ := htrip
  rw [hlast] at h1last
  set cb1 := CircuitBreaker.record_failures cfg (some code) fts cb0 with hcb1
  have hs1 : CircuitBreaker.state cfg cb1 T = .half_open :=
    CircuitBreaker.state_open_elapsed cfg cb1 T tlast h1state h1last hT
  have hadm := CircuitBreaker.can_execute_halfopen_admit cfg cb1 T hs1 (by omega)
  have hclose := CircuitBreaker.record_successes_close cfg tlast sts
    { cb1 with _half_open_calls := cb1._half_open_calls + 1 }
    h1state h1last hsts (by simpa [h1sc] using hslen)
    (by intro h; rw [h] at hslen; simp at hslen; omega)
  obtain ⟨h3state, h3fc, h3sc, h3hoc⟩ := hclose
  rw [hadm]
  dsimp only
  refine ⟨h1state, rfl, ⟨h3state, h3fc, h3sc, h3hoc⟩, ?_⟩
  rw [CircuitBreaker.can_execute_closed cfg _ T2 h3state]

/-- C1 witness: the round trip for the default config, failures with
UNAVAILABLE at times 0,0,0, the admission check at time 40, successes at
times 41 and 42, and a final admission check at time 50. -/
theorem breaker_round_trip_witness :
    (CircuitBreaker.record_failures cbDefaultConfig (some .unavailable) [0, 0, 0] {})._state = .«open» ∧
    (CircuitBreaker.can_execute cbDefaultConfig
      (CircuitBreaker.record_failures cbDefaultConfig (some .unavailable) [0, 0, 0] {}) 40).1 = true ∧
    ((CircuitBreaker.record_successes cbDefaultConfig [41, 42]
        (CircuitBreaker.can_execute cbDefaultConfig
          (CircuitBreaker.record_failures cbDefaultConfig (some .unavailable) [0, 0, 0] {}) 40).2)._state = .closed ∧
      (CircuitBreaker.record_successes cbDefaultConfig [41, 42]
        (CircuitBreaker.can_execute cbDefaultConfig
          (CircuitBreaker.record_failures cbDefaultConfig (some .unavailable) [0, 0, 0] {}) 40).2)._failure_count = 0 ∧
      (CircuitBreaker.record_successes cbDefaultConfig [41, 42]
        (CircuitBreaker.can_execute cbDefaultConfig
          (CircuitBreaker.record_failures cbDefaultConfig (some .unavailable) [0, 0, 0] {}) 40).2)._success_count = 0 ∧
      (CircuitBreaker.record_successes cbDefaultConfig [41, 42]
        (CircuitBreaker.can_execute cbDefaultConfig
          (CircuitBreaker.record_failures cbDefaultConfig (some .unavailable) [0, 0, 0] {}) 40).2)._half_open_calls = 0) ∧
    (CircuitBreaker.can_execute cbDefaultConfig
      (CircuitBreaker.record_successes cbDefaultConfig [41, 42]
        (CircuitBreaker.can_execute cbDefaultConfig
          (CircuitBreaker.record_failures cbDefaultConfig (some .unavailable) [0, 0, 0] {}) 40).2) 50).1 = true :=
  breaker_round_trip cbDefaultConfig {} .unavailable [0, 0, 0] [41, 42] 0 40 50
    rfl rfl rfl rfl (by decide) (by decide) (by decide) (by decide) rfl rfl
    (by simp +decide [cbDefaultConfig]) rfl (by simp +decide [cbDefaultConfig])

/-- The retry loop invokes the continuation at most `remaining` times. -/
theorem RetryInterceptor.retry_loop_invocations_le {α : Type} (p : RetryPolicy)
    (cont : Nat → CallOutcome α) (u : Nat → ℚ) :
    ∀ (remaining attempt : Nat) (last : Option StatusCode),
      (RetryInterceptor._retry_loop p cont u remaining attempt last).2.1 ≤ remaining := by
  intro remaining
  induction remaining with
  | zero => intro attempt last; simp [RetryInterceptor._retry_loop]
  | succ rem ih =>
    intro attempt last
    simp only [RetryInterceptor._retry_loop]
    cases cont attempt with
    | success r => simp
    | failure c =>
      dsimp only
      by_cases hr : RetryInterceptor._is_retryable p c = false
      · rw [if_pos hr]; simp
      · rw [if_neg hr]
        by_cases h1 : 1 ≤ rem
        · rw [if_pos h1]
          have := ih (attempt + 1) (some c)
          simp only []
          omega
        · rw [if_neg h1]
          have := ih (attempt + 1) (some c)
          simp only []
          omega

/-- If attempts `attempt, …, attempt+n-1` fail retryably and attempt
`attempt+n` fails with a non-retryable code (with iterations to spare), the
loop raises that code after exactly `n+1` invocations and `n` backoff
sleeps. -/
theorem RetryInterceptor.retry_loop_nonretryable {α : Type} (p : RetryPolicy)
    (cont : Nat → CallOutcome α) (u : Nat → ℚ) :
    ∀ (n remaining attempt : Nat) (last : Option StatusCode) (c : StatusCode),
      n < remaining →
      (∀ j, j < n → ∃ cj, cont (attempt + j) = .failure cj ∧ cj ∈ p.retryable_status_codes) →
      cont (attempt + n) = .failure c →
      c ∉ p.retryable_status_codes →
      (RetryInterceptor._retry_loop p cont u remaining attempt last).1 = .raised c ∧
      (RetryInterceptor._retry_loop p cont u remaining attempt last).2.1 = n + 1 ∧
      (RetryInterceptor._retry_loop p cont u remaining attempt last).2.2.length = n := by
  intro n
  induction n with
  | zero =>
    intro remaining attempt last c hlt _ hfail hnr
    obtain ⟨rem, rfl⟩ : ∃ rem, remaining = rem + 1 := ⟨remaining - 1, by omega⟩
    rw [Nat.add_zero] at hfail
    simp only [RetryInterceptor._retry_loop]
    rw [hfail]
    dsimp only
    rw [if_pos (by simp [RetryInterceptor._is_retryable, hnr])]
    exact ⟨rfl, rfl, rfl⟩
  | succ n ih =>
    intro remaining attempt last c hlt hj hfail hnr
    obtain ⟨rem, rfl⟩ : ∃ rem, remaining = rem + 1 := ⟨remaining - 1, by omega⟩
    obtain ⟨c0, hc0, hc0r⟩ := hj 0 (by omega)
    rw [Nat.add_zero] at hc0
    simp only [RetryInterceptor._retry_loop]
    rw [hc0]
    dsimp only
    rw [if_neg (by simp [RetryInterceptor._is_retryable, hc0r])]
    rw [if_pos (by omega : 1 ≤ rem)]
    have htail := ih rem (attempt + 1) (some c0) c (by omega)
      (by
        intro j hjlt
        obtain ⟨cj, hcj, hcjr⟩ := hj (j + 1) (by omega)
        exact ⟨cj, by rwa [show attempt + (j + 1) = attempt + 1 + j by omega] at hcj, hcjr⟩)
      (by rwa [show attempt + (n + 1) = attempt + 1 + n by omega] at hfail)
      hnr
    simp only []
    exact ⟨htail.1, by rw [htail.2.1], by simp [htail.2.2]⟩

/-- A successful continuation at the current attempt returns immediately:
one invocation, no sleeps. -/
theorem RetryInterceptor.retry_loop_success {α : Type} (p : RetryPolicy)
    (cont : Nat → CallOutcome α) (u : Nat → ℚ)
    (remaining attempt : Nat) (last : Option StatusCode) (r : α)
    (hs : cont attempt = .success r) (h1 : 1 ≤ remaining) :
    RetryInterceptor._retry_loop p cont u remaining attempt last = (.response r, 1, []) := by
  obtain ⟨rem, rfl⟩ : ∃ rem, remaining = rem + 1 := ⟨remaining - 1, by omega⟩
  simp only [RetryInterceptor._retry_loop]
  rw [hs]

/-- The loop performs at most `remaining - 1` backoff sleeps. -/
theorem RetryInterceptor.retry_loop_sleeps_le {α : Type} (p : RetryPolicy)
    (cont : Nat → CallOutcome α) (u : Nat → ℚ) :
    ∀ (remaining attempt : Nat) (last : Option StatusCode),
      (RetryInterceptor._retry_loop p cont u remaining attempt last).2.2.length ≤ remaining - 1 := by
  intro remaining
  induction remaining with
  | zero => intro attempt last; simp [RetryInterceptor._retry_loop]
  | succ rem ih =>
    intro attempt last
    simp only [RetryInterceptor._retry_loop]
    cases cont attempt with
    | success r => simp
    | failure c =>
      dsimp only
      by_cases hr : RetryInterceptor._is_retryable p c = false
      · rw [if_pos hr]; simp
      · rw [if_neg hr]
        by_cases h1 : 1 ≤ rem
        · rw [if_pos h1]
          have := ih (attempt + 1) (some c)
          simp only [List.length_cons]
          omega
        · rw [if_neg h1]
          have := ih (attempt + 1) (some c)
          simp only []
          omega

/-- Each backoff sleep performed by the loop is exactly
`_calculate_backoff` at the attempt it precedes the retry of. -/
theorem RetryInterceptor.retry_loop_sleep_values {α : Type} (p : RetryPolicy)
    (cont : Nat → CallOutcome α) (u : Nat → ℚ) :
    ∀ (remaining attempt : Nat) (last : Option StatusCode) (i : Nat),
      i < (RetryInterceptor._retry_loop p cont u remaining attempt last).2.2.length →
      (RetryInterceptor._retry_loop p cont u remaining attempt last).2.2.get? i =
        some (RetryInterceptor._calculate_backoff p (attempt + i) (u (attempt + i))) := by
  intro remaining
  induction remaining with
  | zero => intro attempt last i hi; simp [RetryInterceptor._retry_loop] at hi
  | succ rem ih =>
    intro attempt last i hi
    simp only [RetryInterceptor._retry_loop] at hi ⊢
    cases hcont : cont attempt with
    | success r => rw [hcont] at hi; simp at hi
    | failure c =>
      rw [hcont] at hi
      dsimp only at hi ⊢
      by_cases hr : RetryInterceptor._is_retryable p c = false
      · rw [if_pos hr] at hi; simp at hi
      · rw [if_neg hr] at hi ⊢
        by_cases h1 : 1 ≤ rem
        · rw [if_pos h1] at hi ⊢
          cases i with
          | zero => simp [Nat.add_zero]
          | succ j =>
            simp only [List.get?_cons_succ]
            have := ih (attempt + 1) (some c) j (by simp at hi; omega)
            rwa [show attempt + 1 + j = attempt + (j + 1) by omega] at this
        · rw [if_neg h1] at hi ⊢
          have hrem : rem = 0 := by omega
          subst hrem
          simp [RetryInterceptor._retry_loop] at hi

/-- C5: the continuation is invoked at most `max_attempts` times; a failure
with a non-retryable code (after any run of retryable failures) is
propagated immediately — no further invocations, no backoff sleep for it —
and a success on the first attempt returns with one invocation and zero
sleeps. -/
theorem retry_attempt_laws {α : Type} (p : RetryPolicy)
    (cont : Nat → CallOutcome α) (u : Nat → ℚ) :
    (RetryInterceptor.intercept_unary_unary p cont u).2.1 ≤ p.max_attempts ∧
    (∀ n c, n < p.max_attempts →
      (∀ j, j < n → ∃ cj, cont j = .failure cj ∧ cj ∈ p.retryable_status_codes) →
      cont n = .failure c → c ∉ p.retryable_status_codes →
      (RetryInterceptor.intercept_unary_unary p cont u).1 = .raised c ∧
      (RetryInterceptor.intercept_unary_unary p cont u).2.1 = n + 1 ∧
      (RetryInterceptor.intercept_unary_unary p cont u).2.2.length = n) ∧
    (∀ r, 1 ≤ p.max_attempts → cont 0 = .success r →
      RetryInterceptor.intercept_unary_unary p cont u = (.response r, 1, [])) := by
  refine ⟨RetryInterceptor.retry_loop_invocations_le p cont u p.max_attempts 0 none, ?_, ?_⟩
  · intro n c hn hj hfail hnr
    exact RetryInterceptor.retry_loop_nonretryable p cont u n p.max_attempts 0 none c hn
      (by simpa using hj) (by simpa using hfail) hnr
  · intro r h1 hs
    exact RetryInterceptor.retry_loop_success p cont u p.max_attempts 0 none r hs h1

/-- C5 witness: with three attempts and an always-NOT_FOUND continuation,
the call is propagated after exactly one invocation with no sleeps; with an
immediately successful continuation there is one invocation and no sleep. -/
theorem retry_attempt_laws_witness :
    ((RetryInterceptor.intercept_unary_unary retryPolicyW contNotFound (fun _ => 0)).1
        = .raised .not_found ∧
      (RetryInterceptor.intercept_unary_unary retryPolicyW contNotFound (fun _ => 0)).2.1 = 1 ∧
      (RetryInterceptor.intercept_unary_unary retryPolicyW contNotFound (fun _ => 0)).2.2.length = 0) ∧
    RetryInterceptor.intercept_unary_unary retryPolicyW (fun _ => .success "ok") (fun _ => 0)
      = (.response "ok", 1, []) :=
  ⟨(retry_attempt_laws retryPolicyW contNotFound (fun _ => 0)).2.1 0 .not_found
      (by decide) (fun j hj => absurd hj (Nat.not_lt_zero j)) rfl (by decide),
   (retry_attempt_laws retryPolicyW (fun _ => .success "ok") (fun _ => 0)).2.2 "ok"
      (by decide) rfl⟩

/-- C6: every backoff sleep before retrying attempt `k+1` has base
`min(initial_backoff * multiplier^k, max_backoff)` — hence never above
`max_backoff` — and, when the uniform draw respects its
`±jitter * base` range, the slept duration lies in
`[base * (1 - jitter), base * (1 + jitter)]`; and no sleep follows the last
attempt (at most `max_attempts - 1` sleeps happen). -/
theorem backoff_sleep_bounds {α : Type} (p : RetryPolicy)
    (cont : Nat → CallOutcome α) (u : Nat → ℚ)
    (hu : ∀ k, |u k| ≤ p.jitter * min (p.initial_backoff * p.backoff_multiplier ^ k) p.max_backoff) :
    (RetryInterceptor.intercept_unary_unary p cont u).2.2.length ≤ p.max_attempts - 1 ∧
    ∀ i, ∀ hi : i < (RetryInterceptor.intercept_unary_unary p cont u).2.2.length,
      min (p.initial_backoff * p.backoff_multiplier ^ i) p.max_backoff ≤ p.max_backoff ∧
      min (p.initial_backoff * p.backoff_multiplier ^ i) p.max_backoff * (1 - p.jitter) ≤
        (RetryInterceptor.intercept_unary_unary p cont u).2.2.get ⟨i, hi⟩ ∧
      (RetryInterceptor.intercept_unary_unary p cont u).2.2.get ⟨i, hi⟩ ≤
        min (p.initial_backoff * p.backoff_multiplier ^ i) p.max_backoff * (1 + p.jitter) := by
  refine ⟨RetryInterceptor.retry_loop_sleeps_le p cont u p.max_attempts 0 none, ?_⟩
  intro i hi
  have hval := RetryInterceptor.retry_loop_sleep_values p cont u p.max_attempts 0 none i hi
  have hun : RetryInterceptor._retry_loop p cont u p.max_attempts 0 none =
      RetryInterceptor.intercept_unary_unary p cont u := rfl
  rw [hun] at hval
  rw [List.get?_eq_get hi] at hval
  have hget : (RetryInterceptor.intercept_unary_unary p cont u).2.2.get ⟨i, hi⟩ =
      RetryInterceptor._calculate_backoff p (0 + i) (u (0 + i)) := Option.some.inj hval
  rw [Nat.zero_add] at hget
  set base := min (p.initial_backoff * p.backoff_multiplier ^ i) p.max_backoff with hbase
  have habs := abs_le.mp (hu i)
  have hcalc : RetryInterceptor._calculate_backoff p i (u i) = base + u i := rfl
  rw [hget, hcalc]
  have e1 : base * (1 - p.jitter) = base - p.jitter * base := by ring
  have e2 : base * (1 + p.jitter) = base + p.jitter * base := by ring
  refine ⟨min_le_right _ _, ?_, ?_⟩
  · rw [e1]; linarith [habs.1]
  · rw [e2]; linarith [habs.2]

/-- C6 witness: zero-jitter policy, always-UNAVAILABLE continuation, zero
noise — the single sleep (before the second and last attempt) obeys the
bounds. -/
theorem backoff_sleep_bounds_witness :
    (RetryInterceptor.intercept_unary_unary retryPolicyZeroJitter contUnavailable
        (fun _ => 0)).2.2.length ≤ retryPolicyZeroJitter.max_attempts - 1 ∧
    ∀ i, ∀ hi : i < (RetryInterceptor.intercept_unary_unary retryPolicyZeroJitter
        contUnavailable (fun _ => 0)).2.2.length,
      min (retryPolicyZeroJitter.initial_backoff *
          retryPolicyZeroJitter.backoff_multiplier ^ i) retryPolicyZeroJitter.max_backoff
        ≤ retryPolicyZeroJitter.max_backoff ∧
      min (retryPolicyZeroJitter.initial_backoff *
          retryPolicyZeroJitter.backoff_multiplier ^ i) retryPolicyZeroJitter.max_backoff
          * (1 - retryPolicyZeroJitter.jitter) ≤
        (RetryInterceptor.intercept_unary_unary retryPolicyZeroJitter contUnavailable
          (fun _ => 0)).2.2.get ⟨i, hi⟩ ∧
      (RetryInterceptor.intercept_unary_unary retryPolicyZeroJitter contUnavailable
          (fun _ => 0)).2.2.get ⟨i, hi⟩ ≤
        min (retryPolicyZeroJitter.initial_backoff *
            retryPolicyZeroJitter.backoff_multiplier ^ i) retryPolicyZeroJitter.max_backoff
          * (1 + retryPolicyZeroJitter.jitter) :=
  backoff_sleep_bounds retryPolicyZeroJitter contUnavailable (fun _ => 0)
    (fun k => by simp [retryPolicyZeroJitter])

/-- For a non-negative percentile, `_get_percentile` picks the sorted sample
at index `floor(len * percentile / 100)` clamped to the last index. -/
theorem TimeoutManager.get_percentile_eq_floor_pick (cfg : TimeoutConfig)
    (data : List ℚ) (percentile : ℚ) (hp : 0 ≤ percentile) (hne : data ≠ []) :
    TimeoutManager._get_percentile cfg data percentile =
      (List.insertionSort (fun a b => a ≤ b) data).getD
        (min (⌊(data.length : ℚ) * percentile / 100⌋).toNat (data.length - 1)) 0 := by
  have hq0 : 0 ≤ (data.length : ℚ) * percentile / 100 := by
    apply div_nonneg
    · exact mul_nonneg (by positivity) hp
    · norm_num
  have hfl0 : 0 ≤ ⌊(data.length : ℚ) * percentile / 100⌋ := Int.floor_nonneg.mpr hq0
  have hlen1 : 1 ≤ data.length := by
    cases data with
    | nil => exact absurd rfl hne
    | cons a l => simp
  unfold TimeoutManager._get_percentile
  rw [if_neg hne]
  unfold pyInt
  rw [if_neg (not_lt.mpr hq0)]
  unfold pyListGet
  rw [if_pos (le_min hfl0 (by omega))]
  congr 1
  omega

/-- C7: with a non-negative configured percentile, `get_timeout` computes
exactly the specification's estimator — the per-method base (or global
default) when adaptive mode is off or fewer than 10 samples exist, else the
sorted-window sample at index `floor(len * percentile / 100)` (clamped to
the last index) times the adjustment factor, clamped below by `min_timeout`
and above by `min(max_timeout, 2 * base)`. -/
theorem get_timeout_refines_spec (m : TimeoutManager) (method : String)
    (hp : 0 ≤ m.config.percentile) :
    TimeoutManager.get_timeout m method = specAdaptiveTimeout m method := by
  unfold TimeoutManager.get_timeout specAdaptiveTimeout
  by_cases hen : m.config.adaptive_enabled = false
  · simp [hen]
  · by_cases hlen : (m._response_times (TimeoutManager._extract_method_name method)).length < 10
    · simp [hen, hlen]
    · have hne : m._response_times (TimeoutManager._extract_method_name method) ≠ [] := by
        intro h
        rw [h] at hlen
        simp at hlen
      simp only [hen, hlen, if_false, if_neg (by simp [hen, hlen] : ¬ (m.config.adaptive_enabled = false ∨ (m._response_times (TimeoutManager._extract_method_name method)).length < 10))]
      rw [TimeoutManager.get_percentile_eq_floor_pick m.config _ m.config.percentile hp hne]
      ring_nf
      simp

/-- C7 witness: the refinement at the manager that saw ten completed calls
to `svc.Group/Method`. -/
theorem get_timeout_refines_spec_witness :
    TimeoutManager.get_timeout tmAfterTen "svc.Group/Method" =
      specAdaptiveTimeout tmAfterTen "svc.Group/Method" :=
  get_timeout_refines_spec tmAfterTen "svc.Group/Method" (by decide)

/-- C2 (code evaluation at the failing input): ten completed calls to the
path `svc.Group/Method` record their samples under the full path key, the
window consulted by `get_timeout` — the one keyed by the extracted name
`Method` — stays empty, and `get_timeout` still returns the base timeout
30 rather than an adaptive value. -/
theorem adaptive_record_key_mismatch :
    (tmAfterTen._response_times "svc.Group/Method").length = 10 ∧
    tmAfterTen._response_times "Method" = [] ∧
    TimeoutManager.get_timeout tmAfterTen "svc.Group/Method" = 30 := by
  refine ⟨?_, ?_, ?_⟩ <;> decide

/-- C3 counterexample: a stream with `error` set (`"boom"`) but not
completed and holding a checkpoint still has `can_resume = true`, and
`get_resume_point` still returns its checkpoint — an error alone does not
disable resumption. -/
theorem stream_error_still_resumable_counterexample :
    stFailedExample.error = some "boom" ∧
    stFailedExample.can_resume = true ∧
    StreamCheckpointManager.get_resume_point mgrFailedExample "s1" = some cpExample := by
  refine ⟨rfl, ?_, ?_⟩ <;> decide

/-- C3 (amended): a completed stream cannot be resumed — `can_resume` is
false and `get_resume_point` for its id returns `none`; `error` does not
participate in this check. -/
theorem completed_stream_not_resumable (m : StreamCheckpointManager)
    (sid : String) (st : StreamState)
    (hget : dictGet m._streams sid = some st) (hc : st.completed = true) :
    st.can_resume = false ∧
    StreamCheckpointManager.get_resume_point m sid = none := by
  have hcr : st.can_resume = false := by
    simp [StreamState.can_resume, hc]
  refine ⟨hcr, ?_⟩
  unfold StreamCheckpointManager.get_resume_point
  rw [hget]
  simp [hcr]

/-- C3 witness: the completed one-checkpoint stream. -/
theorem completed_stream_not_resumable_witness :
    stCompletedExample.can_resume = false ∧
    StreamCheckpointManager.get_resume_point mgrCompletedExample "s2" = none :=
  completed_stream_not_resumable mgrCompletedExample "s2" stCompletedExample
    (by decide) rfl

/-- Setting a key in an association list makes it readable. -/
theorem dictGet_dictSet_self {κ α : Type} [DecidableEq κ] :
    ∀ (d : List (κ × α)) (k : κ) (v : α), dictGet (dictSet d k v) k = some v := by
  intro d k v
  induction d with
  | nil => simp [dictSet, dictGet]
  | cons e rest ih =>
    by_cases h : e.1 = k
    · simp [dictSet, dictGet, h]
    · simp [dictSet, dictGet, h, ih]

/-- The wrapper's message loop passes consecutive sequence numbers starting
just above its starting `_sequence`. -/
theorem run_loop_sequences :
    ∀ (msgs : List StreamMessage) (m : StreamCheckpointManager) (sid : String)
      (now : ℚ) (s : Nat),
      (ResumableStreamWrapper.run_loop m sid now s msgs).2 =
        List.range' (s + 1) msgs.length := by
  intro msgs
  induction msgs with
  | nil => intro m sid now s; rfl
  | cons msg rest ih =>
    intro m sid now s
    simp only [ResumableStreamWrapper.run_loop, List.length_cons, List.range']
    rw [ih]

/-- C10: `__aiter__` always starts from scratch — after `start_stream`
replaces any prior state for the id with a fresh, checkpoint-free one,
`get_resume_point` returns `none`, so the fresh `stream_factory` is chosen
(never `resume_factory`), and the wrapper's checkpoint sequence numbers are
1, 2, …, one per message. -/
theorem wrapper_restarts_from_scratch (m : StreamCheckpointManager)
    (sid : String) (now : ℚ) (has_resume_factory : Bool)
    (msgs : List StreamMessage) :
    (ResumableStreamWrapper.aiter_start m sid now).2 = none ∧
    ResumableStreamWrapper.choose_factory
      (ResumableStreamWrapper.aiter_start m sid now).2 has_resume_factory = .fresh ∧
    (ResumableStreamWrapper.run_loop (ResumableStreamWrapper.aiter_start m sid now).1
        sid now 0 msgs).2 = List.range' 1 msgs.length := by
  have hrp : (ResumableStreamWrapper.aiter_start m sid now).2 = none := by
    simp only [ResumableStreamWrapper.aiter_start,
      StreamCheckpointManager.start_stream, StreamCheckpointManager.get_resume_point]
    rw [dictGet_dictSet_self]
    simp [StreamState.can_resume, StreamState.last_checkpoint]
  refine ⟨hrp, ?_, ?_⟩
  · rw [hrp]; rfl
  · exact run_loop_sequences msgs _ sid now 0

/-- C9: `get_fallback` resolves in the order cache → per-service handler →
(enabled) rule chain, returning the first non-`None` stage result, and
`None` exactly when all three stages produce `None`. -/
theorem get_fallback_resolution_order {T Req : Type} (m : FallbackManager T Req)
    (hashFn : Req → Int) (now : ℚ) (service_name method : String) (request : Req) :
    (FallbackManager.get_fallback m hashFn now service_name method request).1 =
      firstSome (FallbackCache.get m.cache hashFn now method request).1
        (match dictGet m._custom_handlers service_name with
         | some h => h method request
         | none => none)
        (if m.config.rule_based_enabled then
          RuleBasedFallback.handle m.rule_rules method request
         else none) := by
  simp only [FallbackManager.get_fallback, firstSome]
  rcases hcr : (FallbackCache.get m.cache hashFn now method request).1 with _ | v
  · rcases hch : dictGet m._custom_handlers service_name with _ | h
    · rfl
    · dsimp only
      rcases hh : h method request with _ | r <;> rfl
  · rfl

/-- C8 (code evaluation at the failing input): two idle connections, the
front one unhealthy.  After one acquire, the caller holds connection 2 while
connection 2 is simultaneously still on the idle queue, and connection 1 —
never destroyed — is in `_all_connections` but neither idle nor held;
releasing then leaves the idle queue with connection 2 twice. -/
theorem pool_unhealthy_replacement_partition_bug :
    poolAfterAcquire.2 = some 2 ∧
    poolAfterAcquire.1._pool = [2] ∧
    poolAfterAcquire.1._all_connections = [1, 2] ∧
    poolAfterAcquire.1._total_destroyed = 1 ∧
    (ConnectionPool.release poolAfterAcquire.1 2)._pool = [2, 2] := by
  refine ⟨?_, ?_, ?_, ?_, ?_⟩ <;> decide
